import Mathlib

/-!
Shallow embedding of `oom-notifier` (src/main.rs, src/notifiers.rs): a kernel
OOM-kill detector that correlates pids extracted from the kernel ring buffer
against an LRU cache of process command lines and dispatches events to
notifier sinks.  Pure helpers are translated directly; the two poller loops
are modelled as explicit state-passing functions over one poll cycle, with a
trace of lock/cache/send actions recording the order of effects inside the
cycle.  Rust panics (`unwrap`) are modelled as `Except.error`.
-/

namespace OomNotifier

/-- Model of Rust `char::is_numeric` restricted to the Unicode decimal-digit
blocks relevant here: exact on ASCII digits, and on the Arabic-Indic,
extended Arabic-Indic, Devanagari and fullwidth digit blocks. -/
def rustCharIsNumeric (c : Char) : Bool :=
  ('0' ≤ c && c ≤ '9')
    || (0x660 ≤ c.toNat && c.toNat ≤ 0x669)
    || (0x6F0 ≤ c.toNat && c.toNat ≤ 0x6F9)
    || (0x966 ≤ c.toNat && c.toNat ≤ 0x96F)
    || (0xFF10 ≤ c.toNat && c.toNat ≤ 0xFF19)

/-- `is_string_numeric` (main.rs:22-29): true iff every char is numeric
(vacuously true on the empty string, as in the source loop). -/
def is_string_numeric (str : String) : Bool :=
  str.data.all rustCharIsNumeric

/-- Model of Rust ASCII lowercasing of one char; `str::to_lowercase` is only
applied to ASCII kernel log text here. -/
def rustCharToLower (c : Char) : Char :=
  if 'A' ≤ c && c ≤ 'Z' then Char.ofNat (c.toNat + 32) else c

/-- Model of `str::to_lowercase` (applied to `entry.message`, main.rs:339). -/
def rustToLowercase (s : String) : String :=
  ⟨s.data.map rustCharToLower⟩

/-- Whether `pat` is a leading segment of `s` (helper for substring search). -/
def leadsWith : List Char → List Char → Bool
  | [], _ => true
  | _ :: _, [] => false
  | p :: ps, c :: cs => p == c && leadsWith ps cs

/-- Substring containment on char lists (helper for `str::contains`). -/
def containsSub (s pat : List Char) : Bool :=
  match s with
  | [] => leadsWith pat []
  | _ :: rest => leadsWith pat s || containsSub rest pat

/-- Model of Rust `str::contains` with a literal pattern (main.rs:360). -/
def strContains (s pat : String) : Bool :=
  containsSub s.data pat.data

/-- Accumulator worker for whitespace splitting: `acc` holds the current
token's chars in reverse. -/
def splitWsAux : List Char → List Char → List String
  | [], acc => if acc.isEmpty then [] else [⟨acc.reverse⟩]
  | c :: cs, acc =>
    if c.isWhitespace then
      if acc.isEmpty then splitWsAux cs []
      else ⟨acc.reverse⟩ :: splitWsAux cs []
    else splitWsAux cs (c :: acc)

/-- Model of Rust `str::split_whitespace`: split at whitespace, dropping
empty tokens (main.rs:362, main.rs:37). -/
def splitWhitespace (s : String) : List String :=
  splitWsAux s.data []

/-- Model of Rust `str::trim` (main.rs:52): drop leading and trailing
whitespace. -/
def rustTrim (s : String) : String :=
  ⟨((s.data.dropWhile Char.isWhitespace).reverse.dropWhile Char.isWhitespace).reverse⟩

/-- ASCII decimal digit value. -/
def digitVal? (c : Char) : Option Nat :=
  if '0' ≤ c && c ≤ '9' then some (c.toNat - 48) else none

/-- Accumulating ASCII-decimal parser: fails on any non-ASCII-digit char. -/
def parseAsciiDigitsAux : List Char → Nat → Option Nat
  | [], acc => some acc
  | c :: cs, acc =>
    match digitVal? c with
    | some d => parseAsciiDigitsAux cs (acc * 10 + d)
    | none => none

/-- Nonempty all-ASCII-digit string to its value; `none` otherwise. -/
def parseAsciiDigits? : List Char → Option Nat
  | [] => none
  | l => parseAsciiDigitsAux l 0

/-- Model of Rust `str::parse::<i32>`: optional sign, then ASCII digits,
value within the i32 range; anything else (including non-ASCII numeric
chars and overflow) fails.  Used at main.rs:368 inside `unwrap()`. -/
def parseI32? (s : String) : Option Int :=
  match s.data with
  | '+' :: rest =>
    (parseAsciiDigits? rest).bind
      (fun n => if n ≤ 2147483647 then some (Int.ofNat n) else none)
  | '-' :: rest =>
    (parseAsciiDigits? rest).bind
      (fun n => if n ≤ 2147483648 then some (-(Int.ofNat n)) else none)
  | l =>
    (parseAsciiDigits? l).bind
      (fun n => if n ≤ 2147483647 then some (Int.ofNat n) else none)

/-- Model of Rust `str::parse::<usize>` (64-bit): optional '+', ASCII
digits, value below 2^64.  Used at main.rs:52 inside `unwrap()`. -/
def parseUsize? (s : String) : Option Nat :=
  match s.data with
  | '+' :: rest =>
    (parseAsciiDigits? rest).bind
      (fun n => if n < 18446744073709551616 then some n else none)
  | l =>
    (parseAsciiDigits? l).bind
      (fun n => if n < 18446744073709551616 then some n else none)

/-- Model of `lru::LruCache` as used here: entries kept most-recently-used
first, bounded by `capacity` (main.rs:113 `LruCache::new(pid_max)`). -/
structure LruCache where
  capacity : Nat
  entries : List (Int × String)
deriving DecidableEq, Repr

/-- Value currently associated to a key, without promotion. -/
def LruCache.lookup (c : LruCache) (k : Int) : Option String :=
  (c.entries.find? (fun e => e.1 == k)).map Prod.snd

/-- Whether a key is present. -/
def LruCache.containsKey (c : LruCache) (k : Int) : Bool :=
  c.entries.any (fun e => e.1 == k)

/-- `LruCache::put` (main.rs:260): insert or overwrite, promoting the key to
most-recently-used; if the key is new and the cache is full, the
least-recently-used entry (the last one) is evicted first. -/
def LruCache.put (c : LruCache) (k : Int) (v : String) : LruCache :=
  let remaining := c.entries.filter (fun e => !(e.1 == k))
  if remaining.length == c.entries.length && c.entries.length ≥ c.capacity then
    ⟨c.capacity, (k, v) :: remaining.dropLast⟩
  else
    ⟨c.capacity, (k, v) :: remaining⟩

/-- `LruCache::get` (main.rs:371): look the key up and promote it to
most-recently-used on a hit. -/
def LruCache.get (c : LruCache) (k : Int) : Option String × LruCache :=
  match (c.entries.find? (fun e => e.1 == k)).map Prod.snd with
  | none => (none, c)
  | some v => (some v, ⟨c.capacity, (k, v) :: c.entries.filter (fun e => !(e.1 == k))⟩)

/-- `LruCache::pop` (main.rs:374): remove the key. -/
def LruCache.pop (c : LruCache) (k : Int) : LruCache :=
  ⟨c.capacity, c.entries.filter (fun e => !(e.1 == k))⟩

/-- The notifier configuration read from the CLI flags (main.rs:277-325);
an absent flag leaves the field as the empty string. -/
structure Config where
  syslog_proto : String
  syslog_server : String
  elasticsearch_server : String
  elasticsearch_index : String
  kafka_brokers : String
  kafka_topic : String
  slack_webhook : String
  slack_channel : String
deriving DecidableEq, Repr

/-- The all-sinks-disabled configuration. -/
def Config.empty : Config :=
  ⟨"", "", "", "", "", "", "", ""⟩

/-- Host data read outside the cache lock logic: hostname, kernel version
and the wall-clock milliseconds string (main.rs:87-98). -/
structure EventEnv where
  hostname : String
  kernel : String
  timeMillis : String
deriving DecidableEq, Repr

/-- The event built by `build_oom_event` (main.rs:87-98): the five
string-valued fields of the JSON object. -/
structure OomEvent where
  cmdline : String
  pid : String
  hostname : String
  kernel : String
  time : String
deriving DecidableEq, Repr

/-- `build_oom_event` (main.rs:87-98): `pid` is rendered as a string. -/
def build_oom_event (env : EventEnv) (pid : Int) (cmdline : String) : OomEvent :=
  { cmdline := cmdline
    pid := toString pid
    hostname := env.hostname
    kernel := env.kernel
    time := env.timeMillis }

/-- The notifier sinks, in the order main.rs dispatches them. -/
inductive SinkKind
  | elasticsearch
  | slack
  | kafka
  | syslog
deriving DecidableEq, Repr

/-- Observable effects of the kernel-log watcher's cycle, used to record the
order of cache operations, mutex transitions and notifier sends. -/
inductive Action
  | lockAcquire
  | cacheGet (pid : Int)
  | cachePop (pid : Int)
  | buildEvent (pid : Int)
  | send (s : SinkKind)
  | lockRelease
deriving DecidableEq, Repr

/-- Whether an action is a notifier send. -/
def Action.isSend : Action → Bool
  | .send _ => true
  | _ => false

/-- The guard of the Elasticsearch dispatch (main.rs:378-380). -/
def elasticsearchFires (cfg : Config) : Bool :=
  !cfg.elasticsearch_index.isEmpty && !cfg.elasticsearch_server.isEmpty

/-- The guard of the Slack dispatch (main.rs:398). -/
def slackFires (cfg : Config) : Bool :=
  !cfg.slack_channel.isEmpty && !cfg.slack_webhook.isEmpty

/-- The guard of the Kafka dispatch (main.rs:412). -/
def kafkaFires (cfg : Config) : Bool :=
  !cfg.kafka_topic.isEmpty && !cfg.kafka_brokers.isEmpty

/-- The guard of the syslog dispatch (main.rs:421-424). -/
def syslogFires (cfg : Config) : Bool :=
  cfg.syslog_proto == "unix"
    || (!cfg.syslog_proto.isEmpty && !cfg.syslog_server.isEmpty)

/-- The send actions performed for one successful correlation, in dispatch
order (main.rs:378-434). -/
def sendActions (cfg : Config) : List Action :=
  (if elasticsearchFires cfg then [Action.send SinkKind.elasticsearch] else [])
    ++ (if slackFires cfg then [Action.send SinkKind.slack] else [])
    ++ (if kafkaFires cfg then [Action.send SinkKind.kafka] else [])
    ++ (if syslogFires cfg then [Action.send SinkKind.syslog] else [])

/-- One kernel ring-buffer entry (rmesg): message text and optional
timestamp since boot, modelled in nanoseconds. -/
structure LogEntry where
  message : String
  timestamp_from_system_start : Option Nat
deriving DecidableEq, Repr

/-- The kernel-log watcher's per-cycle state: the watermark
`last_observed_timestamp` (nanoseconds since boot) and the shared cache. -/
structure WatcherState where
  watermark : Nat
  cache : LruCache
deriving DecidableEq, Repr

/-- First all-numeric whitespace token: the source loop (main.rs:362-369)
uses only the first numeric token (`pid_found` stops any later one). -/
def findFirstNumeric : List String → Option String
  | [] => none
  | t :: rest => if is_string_numeric t then some t else findFirstNumeric rest

/-- The candidate-pid token of a message: scan the lowercased message's
whitespace tokens for the first all-numeric one (main.rs:362-369). -/
def candidatePidToken? (lowercase_message : String) : Option String :=
  findFirstNumeric (splitWhitespace lowercase_message)

/-- Processing of one ring-buffer entry inside the lock
(main.rs:338-441): skip entries at or below the watermark, advance the
watermark, match the signature, extract and parse the pid, correlate
against the cache (get then pop) and dispatch to every enabled sink.
The `unwrap` on the pid parse is `Except.error` (a panic); the returned
actions record cache operations and sends in order. -/
def processEntry (env : EventEnv) (cfg : Config) (st : WatcherState)
    (entry : LogEntry) :
    Except String (WatcherState × List OomEvent × List Action) :=
  let lowercase_message := rustToLowercase entry.message
  let timestamp_from_system_start := entry.timestamp_from_system_start.getD 0
  if timestamp_from_system_start ≤ st.watermark then
    .ok (st, [], [])
  else
    let st := { st with watermark := timestamp_from_system_start }
    if strContains lowercase_message "out of memory:" then
      match candidatePidToken? lowercase_message with
      | none => .ok (st, [], [])
      | some tok =>
        match parseI32? tok with
        | none => .error ("panicked at Option::unwrap on pid token " ++ tok)
        | some pid =>
          match st.cache.get pid with
          | (none, cache1) => .ok ({ st with cache := cache1 }, [], [.cacheGet pid])
          | (some cmdline, cache1) =>
            let full_cmdline := cmdline
            let cache2 := cache1.pop pid
            let oom_event := build_oom_event env pid full_cmdline
            .ok ({ st with cache := cache2 }, [oom_event],
              [.cacheGet pid, .cachePop pid, .buildEvent pid] ++ sendActions cfg)
    else
      .ok (st, [], [])

/-- Fold of `processEntry` over the entries of one cycle, in order
(main.rs:338). -/
def processEntries (env : EventEnv) (cfg : Config) :
    WatcherState → List LogEntry →
    Except String (WatcherState × List OomEvent × List Action)
  | st, [] => .ok (st, [], [])
  | st, e :: rest =>
    match processEntry env cfg st e with
    | .error m => .error m
    | .ok (st1, evs1, acts1) =>
      match processEntries env cfg st1 rest with
      | .error m => .error m
      | .ok (st2, evs2, acts2) => .ok (st2, evs1 ++ evs2, acts1 ++ acts2)

/-- One poll cycle of the kernel-log watcher (main.rs:327-445): the mutex
is acquired before the entries are read and processed, and the guard is
dropped only at the end of the `Ok` arm, after every dispatch. -/
def pollCycle (env : EventEnv) (cfg : Config) (st : WatcherState)
    (entries : List LogEntry) :
    Except String (WatcherState × List OomEvent × List Action) :=
  match processEntries env cfg st entries with
  | .error m => .error m
  | .ok (st1, evs, acts) =>
    .ok (st1, evs, Action.lockAcquire :: acts ++ [Action.lockRelease])

/-- The command line stored for one enumerated process (main.rs:251-254):
the joined argument vector, or the resolution failure's description. -/
def resolvedCmdline : Except String (List String) → String
  | .ok parts => String.intercalate " " parts
  | .error e => e

/-- One refresh cycle of the process-table poller (main.rs:244-274): every
enumerated process is `put` into the cache; a failed `cmdline()`
resolution stores the error's own description text instead. -/
def refreshCycle (cache : LruCache)
    (procs : List (Int × Except String (List String))) : LruCache :=
  procs.foldl (fun c p => c.put p.1 (resolvedCmdline p.2)) cache

/-- `get_pid_max` (main.rs:49-54): read `/proc/sys/kernel/pid_max`
(modelled as the read's result), trim, parse as usize; the parse `unwrap`
is a panic (`Except.error`), and a read failure is an `Err` that main
turns into `exit(1)` (main.rs:105-111) — both are fatal at startup. -/
def get_pid_max (file : Except String String) : Except String Nat :=
  match file with
  | .error e => .error ("Could not read /proc/sys/kernel/pid_max: " ++ e)
  | .ok content =>
    match parseUsize? (rustTrim content) with
    | some n => .ok n
    | none => .error "panicked at Option::unwrap on pid_max parse"

/-- Startup capacity determination (main.rs:105-113): the cache is created
with capacity `pid_max`; any `get_pid_max` failure is fatal. -/
def startupCache (file : Except String String) : Except String LruCache :=
  match get_pid_max file with
  | .ok pid_max => .ok ⟨pid_max, []⟩
  | .error e => .error e

/-- Decimal-seconds parser for the first field of `/proc/uptime`, already
composed with `Duration::from_secs_f32` into nanoseconds: models Rust
`parse::<f32>` exactly on plain `digits[.digits]` literals (the only shapes
the uptime file and the claims exercise), eliding f32 rounding; any other
shape fails, as the f32 parse would. -/
def parseSecsToNanos? (s : String) : Option Nat :=
  match s.data.splitOn '.' with
  | [intPart] =>
    (parseAsciiDigits? intPart).map (fun n => n * 1000000000)
  | [intPart, fracPart] =>
    match parseAsciiDigits? intPart, parseAsciiDigits? fracPart with
    | some n, some f =>
      some (n * 1000000000 + f * 10 ^ (9 - fracPart.length) / 10 ^ (fracPart.length - 9))
    | _, _ => none
  | _ => none

/-- `get_uptime` (main.rs:31-47): on a read failure return `Err`; otherwise
take the first whitespace field (defaulting to "0"), parse it as f32
seconds defaulting to 0.0 on a parse failure, and convert to a duration. -/
def get_uptime (file : Except String String) : Except String Nat :=
  match file with
  | .error e => .error ("Could not read /proc/uptime: " ++ e)
  | .ok content =>
    .ok ((parseSecsToNanos? (((splitWhitespace content).head?).getD "0")).getD 0)

/-- Watermark initialization in the kernel-log watcher (main.rs:285-293):
start from 0 and overwrite with the uptime only when `get_uptime`
succeeds. -/
def initWatermark (uptimeFile : Except String String) : Nat :=
  match get_uptime uptimeFile with
  | .ok uptime => uptime
  | .error _ => 0

/-- Actions strictly between the lock acquisition and the lock release of a
cycle trace: the effects performed while the mutex is held. -/
def interiorActions (tr : List Action) : List Action :=
  ((tr.dropWhile (fun a => !(a == Action.lockAcquire))).drop 1).takeWhile
    (fun a => !(a == Action.lockRelease))

/-- Whether some notifier send happens while the cache mutex is held. -/
def sendWhileLocked (tr : List Action) : Bool :=
  (interiorActions tr).any Action.isSend

/-- The spec's worked example entry: an OOM kill of pid 200 at 120.5s. -/
def nginxOomEntry : LogEntry :=
  ⟨"Out of memory: Killed process 200 (nginx) total-vm:12345kB", some 120500000000⟩

/-- A cache holding only pid 200, at the pid_max capacity of the example. -/
def cache200 : LruCache :=
  ⟨4194304, [(200, "nginx: worker")]⟩

/-- Per-entry watermark monotonicity: a completed `processEntry` never
decreases `last_observed_timestamp`. -/
theorem processEntry_watermark_mono (env : EventEnv) (cfg : Config)
    (st : WatcherState) (entry : LogEntry)
    (out : WatcherState × List OomEvent × List Action)
    (h : processEntry env cfg st entry = .ok out) :
    st.watermark ≤ out.1.watermark := by
  rw [processEntry.eq_def] at h
  dsimp only at h
  split at h
  · injection h with h'
    subst h'
    exact Nat.le_refl _
  · rename_i hgt
    have hle : st.watermark ≤ entry.timestamp_from_system_start.getD 0 :=
      le_of_not_le hgt
    split at h
    · split at h
      · injection h with h'
        subst h'
        exact hle
      · split at h
        · exact Except.noConfusion h
        · split at h
          · injection h with h'
            subst h'
            exact hle
          · injection h with h'
            subst h'
            exact hle
    · injection h with h'
      subst h'
      exact hle

/-- Watermark monotonicity over a whole entry list. -/
theorem processEntries_watermark_mono (env : EventEnv) (cfg : Config) :
    ∀ (entries : List LogEntry) (st : WatcherState)
      (out : WatcherState × List OomEvent × List Action),
      processEntries env cfg st entries = .ok out →
      st.watermark ≤ out.1.watermark := by
  intro entries
  induction entries with
  | nil =>
    intro st out h
    injection h with h'
    subst h'
    exact Nat.le_refl _
  | cons e rest ih =>
    intro st out h
    rw [processEntries] at h
    cases h1 : processEntry env cfg st e with
    | error m =>
      rw [h1] at h
      exact Except.noConfusion h
    | ok res =>
      obtain ⟨st1, evs1, acts1⟩ := res
      rw [h1] at h
      dsimp only at h
      cases h2 : processEntries env cfg st1 rest with
      | error m =>
        rw [h2] at h
        exact Except.noConfusion h
      | ok res2 =>
        obtain ⟨st2, evs2, acts2⟩ := res2
        rw [h2] at h
        dsimp only at h
        injection h with h'
        subst h'
        exact Nat.le_trans (processEntry_watermark_mono env cfg st e _ h1)
          (ih st1 (st2, evs2, acts2) h2)

/-- An entry at or below the watermark is skipped: no state change, no
action, no event. -/
theorem processEntry_skip (env : EventEnv) (cfg : Config)
    (st : WatcherState) (entry : LogEntry)
    (h : entry.timestamp_from_system_start.getD 0 ≤ st.watermark) :
    processEntry env cfg st entry = .ok (st, [], []) := by
  rw [processEntry.eq_def]
  dsimp only
  rw [if_pos h]

/-- C3: the watermark is monotonically non-decreasing over any entry
sequence; an entry at or below the watermark is discarded with no
signature matching, pid extraction, correlation or dispatch (no actions,
no events, unchanged state); and replaying in a later cycle an entry whose
timestamp equals the watermark produces zero events. -/
theorem C3_watermark_invariants :
    (∀ (env : EventEnv) (cfg : Config) (st : WatcherState)
        (entries : List LogEntry) (out : WatcherState × List OomEvent × List Action),
        processEntries env cfg st entries = .ok out → st.watermark ≤ out.1.watermark)
      ∧ (∀ (env : EventEnv) (cfg : Config) (st : WatcherState) (entry : LogEntry),
          entry.timestamp_from_system_start.getD 0 ≤ st.watermark →
          processEntry env cfg st entry = .ok (st, [], []))
      ∧ (∀ (env : EventEnv) (cfg : Config) (st : WatcherState) (entry : LogEntry),
          entry.timestamp_from_system_start.getD 0 = st.watermark →
          pollCycle env cfg st [entry]
            = .ok (st, [], [Action.lockAcquire, Action.lockRelease])) := by
  refine ⟨fun env cfg st entries out h => processEntries_watermark_mono env cfg entries st out h,
    fun env cfg st entry h => processEntry_skip env cfg st entry h,
    fun env cfg st entry h => ?_⟩
  have hskip := processEntry_skip env cfg st entry (le_of_eq h)
  simp [pollCycle, processEntries, hskip]

/-- Witness for C3: the worked example's entry replayed with the watermark
already at 120.5s is dropped and the cycle produces zero events. -/
theorem C3_witness :
    (processEntries ⟨"h", "k", "0"⟩ Config.empty ⟨100000000000, cache200⟩ [nginxOomEntry]
        = .ok (⟨120500000000, ⟨4194304, []⟩⟩,
            [⟨"nginx: worker", "200", "h", "k", "0"⟩],
            [.cacheGet 200, .cachePop 200, .buildEvent 200])
      → (100000000000 : Nat) ≤ 120500000000)
      ∧ processEntry ⟨"h", "k", "0"⟩ Config.empty ⟨120500000000, cache200⟩ nginxOomEntry
          = .ok (⟨120500000000, cache200⟩, [], [])
      ∧ pollCycle ⟨"h", "k", "0"⟩ Config.empty ⟨120500000000, cache200⟩ [nginxOomEntry]
          = .ok (⟨120500000000, cache200⟩, [], [Action.lockAcquire, Action.lockRelease]) :=
  ⟨fun h => C3_watermark_invariants.1 ⟨"h", "k", "0"⟩ Config.empty ⟨100000000000, cache200⟩
      [nginxOomEntry] _ h,
    C3_watermark_invariants.2.1 ⟨"h", "k", "0"⟩ Config.empty ⟨120500000000, cache200⟩
      nginxOomEntry (by decide),
    C3_watermark_invariants.2.2 ⟨"h", "k", "0"⟩ Config.empty ⟨120500000000, cache200⟩
      nginxOomEntry (by decide)⟩

/-- C2: starting from cache containing pid 200 mapped to "nginx: worker"
and watermark 100s, the single entry at 120.5s reading "Out of memory:
Killed process 200 (nginx) total-vm:12345kB" yields exactly one event with
pid "200" and cmdline "nginx: worker", the watermark advances to 120.5s,
and pid 200 is absent from the cache afterward. -/
theorem C2_worked_example (env : EventEnv) (cfg : Config) :
    (∃ tr, pollCycle env cfg ⟨100000000000, cache200⟩ [nginxOomEntry]
      = .ok (⟨120500000000, ⟨4194304, []⟩⟩,
          [⟨"nginx: worker", "200", env.hostname, env.kernel, env.timeMillis⟩], tr))
      ∧ LruCache.lookup ⟨4194304, []⟩ 200 = none :=
  ⟨⟨_, rfl⟩, rfl⟩

/-- Every action emitted by the dispatch block is a send. -/
theorem mem_sendActions_isSend (cfg : Config) :
    ∀ a ∈ sendActions cfg, a.isSend = true := by
  intro a ha
  unfold sendActions at ha
  rcases List.mem_append.mp ha with h | h
  · rcases List.mem_append.mp h with h' | h'
    · rcases List.mem_append.mp h' with h'' | h''
      · split at h'' <;> simp_all [Action.isSend]
      · split at h'' <;> simp_all [Action.isSend]
    · split at h' <;> simp_all [Action.isSend]
  · split at h <;> simp_all [Action.isSend]

/-- Per-entry actions never contain a lock transition. -/
theorem processEntry_no_lock (env : EventEnv) (cfg : Config)
    (st : WatcherState) (entry : LogEntry)
    (out : WatcherState × List OomEvent × List Action)
    (h : processEntry env cfg st entry = .ok out) :
    Action.lockAcquire ∉ out.2.2 ∧ Action.lockRelease ∉ out.2.2 := by
  rw [processEntry.eq_def] at h
  dsimp only at h
  split at h
  · injection h with h'
    subst h'
    exact ⟨by simp, by simp⟩
  · split at h
    · split at h
      · injection h with h'
        subst h'
        exact ⟨by simp, by simp⟩
      · split at h
        · exact Except.noConfusion h
        · split at h
          · injection h with h'
            subst h'
            exact ⟨by simp, by simp⟩
          · injection h with h'
            subst h'
            constructor <;>
            · intro hmem
              rcases List.mem_append.mp hmem with hm | hm
              · simp at hm
              · have := mem_sendActions_isSend cfg _ hm
                simp [Action.isSend] at this
    · injection h with h'
      subst h'
      exact ⟨by simp, by simp⟩

/-- Whole-cycle actions (lock transitions apart) never contain a lock
transition. -/
theorem processEntries_no_lock (env : EventEnv) (cfg : Config) :
    ∀ (entries : List LogEntry) (st : WatcherState)
      (out : WatcherState × List OomEvent × List Action),
      processEntries env cfg st entries = .ok out →
      Action.lockAcquire ∉ out.2.2 ∧ Action.lockRelease ∉ out.2.2 := by
  intro entries
  induction entries with
  | nil =>
    intro st out h
    injection h with h'
    subst h'
    exact ⟨by simp, by simp⟩
  | cons e rest ih =>
    intro st out h
    rw [processEntries] at h
    cases h1 : processEntry env cfg st e with
    | error m =>
      rw [h1] at h
      exact Except.noConfusion h
    | ok res =>
      obtain ⟨st1, evs1, acts1⟩ := res
      rw [h1] at h
      dsimp only at h
      cases h2 : processEntries env cfg st1 rest with
      | error m =>
        rw [h2] at h
        exact Except.noConfusion h
      | ok res2 =>
        obtain ⟨st2, evs2, acts2⟩ := res2
        rw [h2] at h
        dsimp only at h
        injection h with h'
        subst h'
        have ha := processEntry_no_lock env cfg st e (st1, evs1, acts1) h1
        have hb := ih st1 (st2, evs2, acts2) h2
        refine ⟨fun hmem => ?_, fun hmem => ?_⟩
        · rcases List.mem_append.mp hmem with hm | hm
          · exact ha.1 hm
          · exact hb.1 hm
        · rcases List.mem_append.mp hmem with hm | hm
          · exact ha.2 hm
          · exact hb.2 hm

/-- C1 as it holds on the code: the mutex guard spans the whole poll cycle,
so every notifier send in a cycle's trace happens strictly between the lock
acquisition and the lock release, while the lock is held. -/
theorem C1_sends_while_lock_held (env : EventEnv) (cfg : Config)
    (st : WatcherState) (entries : List LogEntry)
    (st1 : WatcherState) (evs : List OomEvent) (tr : List Action)
    (h : pollCycle env cfg st entries = .ok (st1, evs, tr)) :
    ∃ mid, tr = Action.lockAcquire :: mid ++ [Action.lockRelease]
      ∧ Action.lockAcquire ∉ mid ∧ Action.lockRelease ∉ mid
      ∧ ∀ s, Action.send s ∈ tr → Action.send s ∈ mid := by
  rw [pollCycle] at h
  cases h0 : processEntries env cfg st entries with
  | error m =>
    rw [h0] at h
    exact Except.noConfusion h
  | ok res =>
    obtain ⟨st2, evs2, acts⟩ := res
    rw [h0] at h
    dsimp only at h
    injection h with h'
    injection h' with hA hBC
    injection hBC with hB hC
    subst hA
    subst hB
    subst hC
    have hnl := processEntries_no_lock env cfg entries st (st2, evs2, acts) h0
    refine ⟨acts, rfl, hnl.1, hnl.2, ?_⟩
    intro s hs
    rcases List.mem_cons.mp hs with heq | hs'
    · exact Action.noConfusion heq
    · rcases List.mem_append.mp hs' with hm | hm
      · exact hm
      · exact Action.noConfusion (List.mem_singleton.mp hm)

/-- Witness for C1: the worked example with only the unix-socket syslog
sink enabled has its send strictly inside the acquire/release span. -/
theorem C1_witness :
    ∃ mid, [Action.lockAcquire, Action.cacheGet 200, Action.cachePop 200,
        Action.buildEvent 200, Action.send SinkKind.syslog, Action.lockRelease]
        = Action.lockAcquire :: mid ++ [Action.lockRelease]
      ∧ Action.lockAcquire ∉ mid ∧ Action.lockRelease ∉ mid
      ∧ ∀ s, Action.send s ∈ [Action.lockAcquire, Action.cacheGet 200,
          Action.cachePop 200, Action.buildEvent 200, Action.send SinkKind.syslog,
          Action.lockRelease] → Action.send s ∈ mid :=
  C1_sends_while_lock_held ⟨"h", "k", "0"⟩ ⟨"unix", "", "", "", "", "", "", ""⟩
    ⟨100000000000, cache200⟩ [nginxOomEntry] ⟨120500000000, ⟨4194304, []⟩⟩
    [⟨"nginx: worker", "200", "h", "k", "0"⟩] _ rfl

/-- C1 as stated is false: with the unix-socket syslog sink enabled, the
worked example's cycle performs its notifier send while the cache mutex is
held (between acquire and release), not after release. -/
theorem C1_counterexample :
    ¬ (∀ (env : EventEnv) (cfg : Config) (st : WatcherState)
        (entries : List LogEntry) (out : WatcherState × List OomEvent × List Action),
        pollCycle env cfg st entries = .ok out →
        sendWhileLocked out.2.2 = false) := by
  intro hclaim
  have h := hclaim ⟨"h", "k", "0"⟩ ⟨"unix", "", "", "", "", "", "", ""⟩
    ⟨100000000000, cache200⟩ [nginxOomEntry]
    (⟨120500000000, ⟨4194304, []⟩⟩, [⟨"nginx: worker", "200", "h", "k", "0"⟩],
      [.lockAcquire, .cacheGet 200, .cachePop 200, .buildEvent 200,
        .send .syslog, .lockRelease]) rfl
  exact absurd h (by decide)

/-- A successful `findFirstNumeric` returns a numeric token preceded only
by non-numeric tokens. -/
theorem findFirstNumeric_spec :
    ∀ (l : List String) (tok : String), findFirstNumeric l = some tok →
      is_string_numeric tok = true
        ∧ ∃ l1 l2, l = l1 ++ tok :: l2 ∧ ∀ t ∈ l1, is_string_numeric t = false := by
  intro l
  induction l with
  | nil =>
    intro tok h
    exact Option.noConfusion h
  | cons a rest ih =>
    intro tok h
    rw [findFirstNumeric] at h
    by_cases hn : is_string_numeric a = true
    · rw [if_pos hn] at h
      injection h with h'
      subst h'
      exact ⟨hn, [], rest, rfl, by intro t ht; cases ht⟩
    · rw [if_neg hn] at h
      obtain ⟨htok, l1, l2, heq, hall⟩ := ih tok h
      refine ⟨htok, a :: l1, l2, by rw [heq]; rfl, ?_⟩
      intro t ht
      rcases List.mem_cons.mp ht with rfl | ht'
      · exact Bool.not_eq_true _ ▸ Bool.of_not_eq_true hn
      · exact hall t ht'

/-- A failed `findFirstNumeric` means no token is numeric. -/
theorem findFirstNumeric_none :
    ∀ (l : List String), findFirstNumeric l = none →
      ∀ t ∈ l, is_string_numeric t = false := by
  intro l
  induction l with
  | nil =>
    intro _ t ht
    cases ht
  | cons a rest ih =>
    intro h t ht
    rw [findFirstNumeric] at h
    by_cases hn : is_string_numeric a = true
    · rw [if_pos hn] at h
      exact Option.noConfusion h
    · rw [if_neg hn] at h
      rcases List.mem_cons.mp ht with rfl | ht'
      · exact Bool.of_not_eq_true hn
      · exact ih h t ht'

/-- C4: on any line containing the lowercased signature, the candidate pid
token is the first all-numeric whitespace token (every earlier token is
non-numeric), a numeric token always yields a candidate, and the example
"process 4821 uid 0" resolves to 4821, not 0. -/
theorem C4_first_numeric_token :
    (∀ msg tok, strContains msg "out of memory:" = true →
        candidatePidToken? msg = some tok →
        is_string_numeric tok = true
          ∧ ∃ l1 l2, splitWhitespace msg = l1 ++ tok :: l2
              ∧ ∀ t ∈ l1, is_string_numeric t = false)
      ∧ (∀ msg t, strContains msg "out of memory:" = true →
          t ∈ splitWhitespace msg → is_string_numeric t = true →
          candidatePidToken? msg ≠ none)
      ∧ candidatePidToken? (rustToLowercase "Out of memory: process 4821 uid 0")
          = some "4821"
      ∧ parseI32? "4821" = some 4821 := by
  refine ⟨fun msg tok _ h => findFirstNumeric_spec _ tok h, ?_, by decide, by decide⟩
  intro msg t _ ht hnum hnone
  rw [findFirstNumeric_none _ hnone t ht] at hnum
  exact Bool.noConfusion hnum

/-- Witness for C4 at the example line "Out of memory: process 4821 uid 0". -/
theorem C4_witness :
    (strContains (rustToLowercase "Out of memory: process 4821 uid 0")
        "out of memory:" = true)
      ∧ (is_string_numeric "4821" = true
          ∧ ∃ l1 l2,
            splitWhitespace (rustToLowercase "Out of memory: process 4821 uid 0")
              = l1 ++ "4821" :: l2
              ∧ ∀ t ∈ l1, is_string_numeric t = false)
      ∧ candidatePidToken? (rustToLowercase "Out of memory: process 4821 uid 0") ≠ none :=
  ⟨by decide,
    C4_first_numeric_token.1 (rustToLowercase "Out of memory: process 4821 uid 0")
      "4821" (by decide) (by decide),
    C4_first_numeric_token.2.1 (rustToLowercase "Out of memory: process 4821 uid 0")
      "4821" (by decide) (by decide) (by decide)⟩

/-- C5: a ring-buffer entry whose first all-numeric token does not fit in a
32-bit signed integer makes the per-entry processing panic (the `unwrap`
at main.rs:368), terminating the kernel-log poller rather than skipping
the entry. -/
theorem C5_overflow_pid_token_panics :
    processEntry ⟨"host", "kernel", "0"⟩ Config.empty ⟨0, ⟨4194304, []⟩⟩
      ⟨"Out of memory: Killed process 9999999999 (big) total-vm:1kB", some 5000000000⟩
      = .error "panicked at Option::unwrap on pid token 9999999999" := by
  rfl

/-- C6: a pid-ceiling file reading "4194304\n" yields cache capacity
exactly 4194304, and a file whose trimmed content does not parse as a
usize is fatal at startup. -/
theorem C6_pid_ceiling :
    startupCache (.ok "4194304\n") = .ok ⟨4194304, []⟩
      ∧ ∀ content, parseUsize? (rustTrim content) = none →
          ∃ msg, startupCache (.ok content) = .error msg := by
  refine ⟨rfl, ?_⟩
  intro content h
  refine ⟨"panicked at Option::unwrap on pid_max parse", ?_⟩
  unfold startupCache get_pid_max
  simp [h]

/-- Witness for C6 at the concrete non-numeric ceiling file "not-a-number". -/
theorem C6_pid_ceiling_witness :
    parseUsize? (rustTrim "not-a-number") = none
      ∧ ∃ msg, startupCache (.ok "not-a-number") = .error msg :=
  ⟨by decide, C6_pid_ceiling.2 "not-a-number" (by decide)⟩

/-- A string's `isEmpty` is false exactly when it differs from "". -/
theorem isEmpty_false_iff (s : String) : s.isEmpty = false ↔ ¬ s = "" := by
  rw [Bool.eq_false_iff]
  exact not_congr (String.isEmpty_iff s)

/-- The syslog send is emitted exactly when its guard holds. -/
theorem mem_sendActions_syslog (cfg : Config) :
    Action.send SinkKind.syslog ∈ sendActions cfg ↔ syslogFires cfg = true := by
  by_cases h1 : elasticsearchFires cfg <;>
    by_cases h2 : slackFires cfg <;>
      by_cases h3 : kafkaFires cfg <;>
        by_cases h4 : syslogFires cfg <;>
          simp [sendActions, h1, h2, h3, h4]

/-- The Kafka send is emitted exactly when its guard holds. -/
theorem mem_sendActions_kafka (cfg : Config) :
    Action.send SinkKind.kafka ∈ sendActions cfg ↔ kafkaFires cfg = true := by
  by_cases h1 : elasticsearchFires cfg <;>
    by_cases h2 : slackFires cfg <;>
      by_cases h3 : kafkaFires cfg <;>
        by_cases h4 : syslogFires cfg <;>
          simp [sendActions, h1, h2, h3, h4]

/-- C7: the syslog sink sends iff the protocol is "unix" or both protocol
and server are non-empty (so unix with no server still fires), and the
Kafka sink sends iff both topic and brokers are non-empty (so a topic with
no brokers never fires). -/
theorem C7_sink_enablement :
    (∀ cfg : Config, Action.send SinkKind.syslog ∈ sendActions cfg ↔
        (cfg.syslog_proto = "unix"
          ∨ (cfg.syslog_proto ≠ "" ∧ cfg.syslog_server ≠ "")))
      ∧ (∀ cfg : Config, Action.send SinkKind.kafka ∈ sendActions cfg ↔
          (cfg.kafka_topic ≠ "" ∧ cfg.kafka_brokers ≠ ""))
      ∧ Action.send SinkKind.syslog ∈ sendActions ⟨"unix", "", "", "", "", "", "", ""⟩
      ∧ Action.send SinkKind.kafka ∉ sendActions ⟨"", "", "", "", "", "oom-events", "", ""⟩ := by
  refine ⟨fun cfg => ?_, fun cfg => ?_, by decide, by decide⟩
  · rw [mem_sendActions_syslog]
    simp [syslogFires, String.isEmpty_iff, isEmpty_false_iff]
  · rw [mem_sendActions_kafka]
    simp [kafkaFires, String.isEmpty_iff, isEmpty_false_iff]

/-- `find?` for one key is unchanged by filtering out a different key. -/
theorem find_filter_ne (l : List (Int × String)) (k k' : Int) (hkk : ¬ k' = k) :
    (l.filter (fun e => !(e.1 == k))).find? (fun e => e.1 == k')
      = l.find? (fun e => e.1 == k') := by
  induction l with
  | nil => rfl
  | cons e rest ih =>
    by_cases hek : e.1 = k
    · have h1 : (e.1 == k) = true := by simp [hek]
      have h2 : (e.1 == k') = false := by simp [hek]; omega
      simpa [List.filter_cons, List.find?_cons, h1, h2] using ih
    · have h1 : (e.1 == k) = false := by simp [hek]
      by_cases hek' : e.1 = k'
      · have h2 : (e.1 == k') = true := by simp [hek']
        simp [List.filter_cons, List.find?_cons, h1, h2]
      · have h2 : (e.1 == k') = false := by simp [hek']
        simpa [List.filter_cons, List.find?_cons, h1, h2] using ih

/-- `put` makes its key's value visible. -/
theorem put_lookup_self (c : LruCache) (k : Int) (v : String) :
    (c.put k v).lookup k = some v := by
  unfold LruCache.put LruCache.lookup
  dsimp only
  split <;> simp [List.find?]

/-- `put` grows the entry list by at most one. -/
theorem put_length_le (c : LruCache) (k : Int) (v : String) :
    (c.put k v).entries.length ≤ c.entries.length + 1 := by
  have hf := List.length_filter_le (fun e => !(e.1 == k)) c.entries
  unfold LruCache.put
  dsimp only
  split <;> simp [List.length_dropLast] <;> omega

/-- `put` never changes the capacity. -/
theorem put_capacity (c : LruCache) (k : Int) (v : String) :
    (c.put k v).capacity = c.capacity := by
  unfold LruCache.put
  dsimp only
  split <;> rfl

/-- Below capacity, `put` of one key preserves every other key's value. -/
theorem put_lookup_preserve (c : LruCache) (k k' : Int) (v : String)
    (hkk : ¬ k' = k) (hlen : c.entries.length < c.capacity) :
    (c.put k v).lookup k' = c.lookup k' := by
  unfold LruCache.put LruCache.lookup
  dsimp only
  split
  · rename_i hguard
    exfalso
    have h2 := ((Bool.and_eq_true _ _).mp hguard).2
    simp at h2
    omega
  · dsimp only
    have h2 : (k == k') = false := by simp; omega
    simp only [List.find?_cons, h2]
    rw [find_filter_ne _ k k' hkk]

/-- A refresh batch preserves the value of any key none of its processes
touches, as long as the cache stays below capacity throughout. -/
theorem refreshCycle_preserves_lookup :
    ∀ (procs : List (Int × Except String (List String))) (cache : LruCache)
      (k : Int) (v : String),
      (∀ p ∈ procs, p.1 ≠ k) →
      cache.entries.length + procs.length ≤ cache.capacity →
      cache.lookup k = some v →
      (refreshCycle cache procs).lookup k = some v := by
  intro procs
  induction procs with
  | nil =>
    intro cache k v _ _ hv
    exact hv
  | cons p rest ih =>
    intro cache k v hk hcap hv
    show (refreshCycle (cache.put p.1 (resolvedCmdline p.2)) rest).lookup k = some v
    have hlen : cache.entries.length < cache.capacity := by
      simp [List.length_cons] at hcap
      omega
    refine ih (cache.put p.1 (resolvedCmdline p.2)) k v
      (fun q hq => hk q (List.mem_cons_of_mem p hq)) ?_ ?_
    · have h1 := put_length_le cache p.1 (resolvedCmdline p.2)
      rw [put_capacity]
      simp [List.length_cons] at hcap
      omega
    · rw [put_lookup_preserve cache p.1 k (resolvedCmdline p.2)
        (fun heq => hk p (List.mem_cons_self p rest) heq.symm) hlen]
      exact hv

/-- C8: a refresh batch over distinct live pids that fit the capacity
stores, for every enumerated process, the joined command line on success
and the failure's own description text on a resolution failure — every
enumerated pid has a value afterwards. -/
theorem C8_refresh_inserts_every_pid :
    ∀ (procs : List (Int × Except String (List String))) (cache : LruCache),
      (procs.map Prod.fst).Nodup →
      cache.entries.length + procs.length ≤ cache.capacity →
      ∀ p ∈ procs, (refreshCycle cache procs).lookup p.1
        = some (resolvedCmdline p.2) := by
  intro procs
  induction procs with
  | nil =>
    intro cache _ _ p hp
    cases hp
  | cons q rest ih =>
    intro cache hnd hcap p hp
    rcases List.mem_cons.mp hp with rfl | hp'
    · show (refreshCycle (cache.put p.1 (resolvedCmdline p.2)) rest).lookup p.1
        = some (resolvedCmdline p.2)
      refine refreshCycle_preserves_lookup rest _ p.1 (resolvedCmdline p.2)
        ?_ ?_ (put_lookup_self cache p.1 (resolvedCmdline p.2))
      · intro r hr heq
        exact (List.nodup_cons.mp hnd).1 (heq ▸ List.mem_map_of_mem Prod.fst hr)
      · have h1 := put_length_le cache p.1 (resolvedCmdline p.2)
        rw [put_capacity]
        simp [List.length_cons] at hcap
        omega
    · show (refreshCycle (cache.put q.1 (resolvedCmdline q.2)) rest).lookup p.1
        = some (resolvedCmdline p.2)
      refine ih (cache.put q.1 (resolvedCmdline q.2)) ?_ ?_ p hp'
      · exact (List.nodup_cons.mp hnd).2
      · have h1 := put_length_le cache q.1 (resolvedCmdline q.2)
        rw [put_capacity]
        simp [List.length_cons] at hcap
        omega

/-- Witness for C8: two processes, one with a failed cmdline resolution,
both present afterwards — the second with the error's description text. -/
theorem C8_witness :
    (([( (1 : Int), Except.ok ["nginx:", "worker"]),
        ((2 : Int), Except.error "permission denied")].map Prod.fst).Nodup)
      ∧ (refreshCycle ⟨3, []⟩
          [(1, .ok ["nginx:", "worker"]), (2, .error "permission denied")]).lookup 1
          = some "nginx: worker"
      ∧ (refreshCycle ⟨3, []⟩
          [(1, .ok ["nginx:", "worker"]), (2, .error "permission denied")]).lookup 2
          = some "permission denied" :=
  ⟨by decide,
    C8_refresh_inserts_every_pid
      [(1, .ok ["nginx:", "worker"]), (2, .error "permission denied")] ⟨3, []⟩
      (by decide) (by decide) (1, .ok ["nginx:", "worker"])
      (List.mem_cons_self _ _),
    C8_refresh_inserts_every_pid
      [(1, .ok ["nginx:", "worker"]), (2, .error "permission denied")] ⟨3, []⟩
      (by decide) (by decide) (2, .error "permission denied")
      (List.mem_cons_of_mem _ (List.mem_cons_self _ _))⟩

/-- C9: when the uptime file is unreadable, or its first whitespace field
does not parse as a number, the watermark is initialized to zero, so a
ring-buffer entry timestamped before watcher start (here 120.5s, with the
machine presumably up much longer) is matched and dispatched. -/
theorem C9_uptime_failure_zero_watermark :
    (∀ e, initWatermark (.error e) = 0)
      ∧ (∀ content, parseSecsToNanos? ((splitWhitespace content).head?.getD "0") = none →
          initWatermark (.ok content) = 0)
      ∧ (∃ tr, pollCycle ⟨"h", "k", "0"⟩ Config.empty
          ⟨initWatermark (.error "permission denied"), cache200⟩ [nginxOomEntry]
          = .ok (⟨120500000000, ⟨4194304, []⟩⟩,
              [⟨"nginx: worker", "200", "h", "k", "0"⟩], tr)) := by
  refine ⟨fun e => rfl, ?_, ⟨_, rfl⟩⟩
  intro content h
  unfold initWatermark get_uptime
  simp [h]

/-- Witness for C9 at the concrete unparsable uptime content "abc 123". -/
theorem C9_uptime_witness :
    parseSecsToNanos? ((splitWhitespace "abc 123").head?.getD "0") = none
      ∧ initWatermark (.ok "abc 123") = 0 :=
  ⟨by decide, C9_uptime_failure_zero_watermark.2.1 "abc 123" (by decide)⟩

/-- C10: an entry with no timestamp-since-boot is read as timestamp zero,
so whenever the watermark is positive it is discarded before signature
matching: the state is unchanged, no action is taken and no event is
produced. -/
theorem C10_absent_timestamp_discarded (env : EventEnv) (cfg : Config)
    (st : WatcherState) (entry : LogEntry)
    (hts : entry.timestamp_from_system_start = none)
    (hwm : 0 < st.watermark) :
    processEntry env cfg st entry = .ok (st, [], []) := by
  unfold processEntry
  rw [hts]
  simp

/-- Witness for C10 at a concrete timestampless OOM entry. -/
theorem C10_witness :
    (⟨"Out of memory: Killed process 7 (a)", none⟩ : LogEntry).timestamp_from_system_start = none
      ∧ 0 < (100 : Nat)
      ∧ processEntry ⟨"h", "k", "0"⟩ Config.empty ⟨100, ⟨4194304, []⟩⟩
          ⟨"Out of memory: Killed process 7 (a)", none⟩ = .ok (⟨100, ⟨4194304, []⟩⟩, [], []) :=
  ⟨rfl, by decide,
    C10_absent_timestamp_discarded ⟨"h", "k", "0"⟩ Config.empty ⟨100, ⟨4194304, []⟩⟩
      ⟨"Out of memory: Killed process 7 (a)", none⟩ rfl (by decide)⟩

end OomNotifier
